import Mathlib

/-!
Verification of the dataset-digest / prompt-composition / conversation-state
core of the cosmetics fraud-detection chatbot (`app.py`).

The embedding models the pandas DataFrame as a `Table`: a set of
column-presence flags plus an ordered list of rows.  Numeric cells are
rationals, `value_counts` is modelled as a stable sort (descending by count,
first-occurrence order on ties) of the per-value occurrence counts, and the
external answering service is a function parameter returning `Except`.
-/

namespace FraudChatbot

/-- One transaction row.  Cells that the digest never reads are omitted;
a cell's value is only consulted when its column-presence flag is set. -/
structure Row where
  loyaltyTier : String
  paymentMethod : String
  productCategory : String
  storeId : String
  location : String
  deviceType : String
  purchaseAmount : ℚ
  customerAge : ℚ
  fraudFlag : Nat
deriving DecidableEq

/-- Column-presence flags: `df.columns` membership tests done by the code. -/
structure Cols where
  fraudFlag : Bool
  loyaltyTier : Bool
  paymentMethod : Bool
  productCategory : Bool
  storeId : Bool
  location : Bool
  deviceType : Bool
  purchaseAmount : Bool
  customerAge : Bool
  transactionTime : Bool
deriving DecidableEq

/-- The loaded DataFrame `df`. -/
structure Table where
  cols : Cols
  rows : List Row
deriving DecidableEq

/-- Number of occurrences of `a` in `xs`. -/
def countOcc (xs : List String) (a : String) : Nat :=
  (xs.filter (fun x => x == a)).length

/-- Distinct elements of the second list, in first-occurrence order,
skipping elements already in `seen`. -/
def dedupFirstAux (seen : List String) : List String → List String
  | [] => []
  | a :: l => if seen.contains a then dedupFirstAux seen l
              else a :: dedupFirstAux (a :: seen) l

/-- Distinct elements of `xs` in first-occurrence order. -/
def dedupFirst (xs : List String) : List String := dedupFirstAux [] xs

/-- The ordering used by `Series.value_counts()`: descending by count. -/
def byCountDesc (p q : String × Nat) : Prop := q.2 ≤ p.2

instance : DecidableRel byCountDesc := fun p q =>
  inferInstanceAs (Decidable (q.2 ≤ p.2))

instance : IsTotal (String × Nat) byCountDesc :=
  ⟨fun p q => Nat.le_total q.2 p.2⟩

instance : IsTrans (String × Nat) byCountDesc :=
  ⟨fun _ _ _ h1 h2 => Nat.le_trans h2 h1⟩

/-- Per-value occurrence counts, keyed in first-occurrence order. -/
def rawCounts (xs : List String) : List (String × Nat) :=
  (dedupFirst xs).map (fun a => (a, countOcc xs a))

/-- `Series.value_counts()`: counts of distinct values, sorted descending by
count, ties kept in stable first-occurrence order. -/
def value_counts (xs : List String) : List (String × Nat) :=
  List.insertionSort byCountDesc (rawCounts xs)

/-- Round to the nearest integer (half rounds up), as `Series.round` /
float formatting are idealised over ℚ. -/
def roundQ (x : ℚ) : ℤ := ⌊x + 1/2⌋

/-- `.round(2)`: round to two decimal places. -/
def round2 (x : ℚ) : ℚ := (roundQ (x * 100) : ℚ) / 100

/-- The percentage reported for a group of `c` rows out of `n` fraud rows:
`(c / n * 100).round(2)`. -/
def pctOf (n c : Nat) : ℚ := round2 ((c : ℚ) / (n : ℚ) * 100)

/-- Two-digit zero-padded rendering of `m < 100`. -/
def pad2 (m : Nat) : String := if m < 10 then "0" ++ toString m else toString m

/-- Python `f"{x:.2f}"`. -/
def format2 (x : ℚ) : String :=
  let n : ℤ := roundQ (x * 100)
  let sgn : String := if n < 0 then "-" else ""
  let m : Nat := n.natAbs
  sgn ++ toString (m / 100) ++ "." ++ pad2 (m % 100)

/-- Python `f"{x:.1f}"`. -/
def format1 (x : ℚ) : String :=
  let n : ℤ := roundQ (x * 10)
  let sgn : String := if n < 0 then "-" else ""
  let m : Nat := n.natAbs
  sgn ++ toString (m / 10) ++ "." ++ toString (m % 10)

/-- Python `f"{x:.0f}"`. -/
def format0 (x : ℚ) : String := toString (roundQ x)

/-- Python `repr` of a float already rounded to 2 decimals (as interpolated
by `f"...{pct}%"`): minimal decimal digits, at least one. -/
def pctRepr (x : ℚ) : String :=
  let n : Nat := (roundQ (x * 100)).natAbs
  if n % 100 == 0 then toString (n / 100) ++ ".0"
  else if n % 10 == 0 then toString (n / 100) ++ "." ++ toString (n / 10 % 10)
  else toString (n / 100) ++ "." ++ pad2 (n % 100)

/-- Insert a comma after every third digit of a reversed digit list. -/
def groupThrees : List Char → List Char
  | a :: b :: c :: d :: rest => a :: b :: c :: ',' :: groupThrees (d :: rest)
  | l => l

/-- Python `f"{n:,}"`: thousands separators. -/
def natCommas (n : Nat) : String :=
  String.mk ((groupThrees (toString n).data.reverse).reverse)

/-- `Series.mean()`. -/
def qmean (l : List ℚ) : ℚ := l.sum / (l.length : ℚ)

/-- `Series.min()` (0 on the empty list, which the digest never queries). -/
def qmin : List ℚ → ℚ
  | [] => 0
  | a :: l => l.foldl min a

/-- `Series.max()` (0 on the empty list, which the digest never queries). -/
def qmax : List ℚ → ℚ
  | [] => 0
  | a :: l => l.foldl max a

/-- `Series.median()`: middle element of the sorted list, or the mean of the
two middle elements. -/
def qmedian (l : List ℚ) : ℚ :=
  let s := List.insertionSort (· ≤ ·) l
  if l.length % 2 == 1 then s.getD (l.length / 2) 0
  else (s.getD (l.length / 2 - 1) 0 + s.getD (l.length / 2) 0) / 2

/-- `fraud_count = df['Fraud_Flag'].sum() if 'Fraud_Flag' in df.columns else 0`. -/
def fraud_count (t : Table) : Nat :=
  if t.cols.fraudFlag then (t.rows.map (fun r => r.fraudFlag)).sum else 0

/-- `fraud_rate = (fraud_count / total_transactions * 100) if total_transactions > 0 else 0`. -/
def fraud_rate (t : Table) : ℚ :=
  if 0 < t.rows.length then (fraud_count t : ℚ) / (t.rows.length : ℚ) * 100 else 0

/-- `fraud_df = df[df['Fraud_Flag'] == 1] if 'Fraud_Flag' in df.columns else pd.DataFrame()`. -/
def fraud_df (t : Table) : List Row :=
  if t.cols.fraudFlag then t.rows.filter (fun r => r.fraudFlag == 1) else []

/-- The 16 column names hardcoded in the KEY COLUMNS block. -/
def keyColumnNames : List String :=
  ["Transaction_ID", "Customer_ID", "Transaction_Date", "Transaction_Time",
   "Customer_Age", "Customer_Loyalty_Tier", "Location", "Store_ID",
   "Product_SKU", "Product_Category", "Purchase_Amount",
   "Payment_Method", "Device_Type", "IP_Address", "Fraud_Flag", "Footfall_Count"]

/-- The literal KEY COLUMNS block of the summary f-string. -/
def keyColumnsBlock : String :=
  "KEY COLUMNS AVAILABLE:\n- Transaction_ID, Customer_ID, Transaction_Date, Transaction_Time\n- Customer_Age, Customer_Loyalty_Tier, Location, Store_ID\n- Product_SKU, Product_Category, Purchase_Amount\n- Payment_Method, Device_Type, IP_Address, Fraud_Flag, Footfall_Count"

/-- The DATASET OVERVIEW lines of the summary f-string. -/
def overviewBlock (t : Table) : String :=
  "\nDATASET OVERVIEW:\n- Total Transactions: " ++ natCommas t.rows.length ++
  "\n- Fraudulent Transactions: " ++ toString (fraud_count t) ++
  " (" ++ format2 (fraud_rate t) ++
  "%)\n- Legitimate Transactions: " ++
  toString ((t.rows.length : ℤ) - (fraud_count t : ℤ)) ++
  " (" ++ format2 (100 - fraud_rate t) ++ "%)\n\n"

/-- The full header f-string assigned to `summary` before any fraud section. -/
def headerBlock (t : Table) : String :=
  overviewBlock t ++ keyColumnsBlock ++ "\n\n"

/-- One `  - value: count transactions (pct...)` line per group. -/
def breakdownLines (entries : List (String × Nat)) (n : Nat) (tailTxt : String) : String :=
  String.join (entries.map (fun p =>
    "  - " ++ p.1 ++ ": " ++ toString p.2 ++ " transactions (" ++
    pctRepr (pctOf n p.2) ++ tailTxt ++ "\n"))

/-- Store_ID groups of the fraud subset, as listed by `value_counts()`. -/
def storeEntries (t : Table) : List (String × Nat) :=
  value_counts ((fraud_df t).map (fun r => r.storeId))

/-- Location groups of the fraud subset, as listed by `value_counts()`. -/
def locationEntries (t : Table) : List (String × Nat) :=
  value_counts ((fraud_df t).map (fun r => r.location))

/-- Customer_Loyalty_Tier section (guarded by column presence). -/
def loyaltySection (t : Table) : String :=
  if t.cols.loyaltyTier then
    "\nCustomer Loyalty Tier Distribution in Fraud:\n" ++
    breakdownLines (value_counts ((fraud_df t).map (fun r => r.loyaltyTier)))
      (fraud_df t).length "% of all fraud)"
  else ""

/-- Payment_Method section. -/
def paymentSection (t : Table) : String :=
  if t.cols.paymentMethod then
    "\nPayment Methods in Fraud:\n" ++
    breakdownLines (value_counts ((fraud_df t).map (fun r => r.paymentMethod)))
      (fraud_df t).length "%)"
  else ""

/-- Product_Category section. -/
def productSection (t : Table) : String :=
  if t.cols.productCategory then
    "\nProduct Categories in Fraud:\n" ++
    breakdownLines (value_counts ((fraud_df t).map (fun r => r.productCategory)))
      (fraud_df t).length "%)"
  else ""

/-- Store_ID section, truncated by `.head(10)`. -/
def storeSection (t : Table) : String :=
  if t.cols.storeId then
    "\nStores in Fraud (Top 10):\n" ++
    breakdownLines ((storeEntries t).take 10) (fraud_df t).length "%)"
  else ""

/-- Location section, truncated by `.head(10)`. -/
def locationSection (t : Table) : String :=
  if t.cols.location then
    "\nLocations in Fraud (Top 10):\n" ++
    breakdownLines ((locationEntries t).take 10) (fraud_df t).length "%)"
  else ""

/-- Device_Type section. -/
def deviceSection (t : Table) : String :=
  if t.cols.deviceType then
    "\nDevice Types in Fraud:\n" ++
    breakdownLines (value_counts ((fraud_df t).map (fun r => r.deviceType)))
      (fraud_df t).length "%)"
  else ""

/-- Purchase_Amount statistics section. -/
def purchaseSection (t : Table) : String :=
  if t.cols.purchaseAmount then
    let amounts := (fraud_df t).map (fun r => r.purchaseAmount)
    "\nPurchase Amount Statistics for Fraud:\n" ++
    "  - Average: $" ++ format2 (qmean amounts) ++ "\n" ++
    "  - Median: $" ++ format2 (qmedian amounts) ++ "\n" ++
    "  - Min: $" ++ format2 (qmin amounts) ++ "\n" ++
    "  - Max: $" ++ format2 (qmax amounts) ++ "\n" ++
    "  - Total Fraud Amount: $" ++ format2 amounts.sum ++ "\n"
  else ""

/-- Customer_Age statistics section. -/
def ageSection (t : Table) : String :=
  if t.cols.customerAge then
    let ages := (fraud_df t).map (fun r => r.customerAge)
    "\nCustomer Age Statistics for Fraud:\n" ++
    "  - Average Age: " ++ format1 (qmean ages) ++ " years\n" ++
    "  - Min Age: " ++ format0 (qmin ages) ++ " years\n" ++
    "  - Max Age: " ++ format0 (qmax ages) ++ " years\n"
  else ""

/-- Transaction_Time note. -/
def timeSection (t : Table) : String :=
  if t.cols.transactionTime then
    "\nNote: Transaction times available for time-based pattern analysis\n"
  else ""

/-- Everything appended under the `if len(fraud_df) > 0` guard. -/
def fraudStatsBlock (t : Table) : String :=
  "\n\nCOMPREHENSIVE FRAUD STATISTICS (Based on ALL " ++
  toString (fraud_df t).length ++ " fraudulent transactions):\n" ++
  loyaltySection t ++ paymentSection t ++ productSection t ++ storeSection t ++
  locationSection t ++ deviceSection t ++ purchaseSection t ++ ageSection t ++
  timeSection t

/-- `get_dataset_summary()`: the fraud digest builder. -/
def get_dataset_summary (ds : Option Table) : String :=
  match ds with
  | none => "Dataset not available."
  | some t =>
    if 0 < (fraud_df t).length then headerBlock t ++ fraudStatsBlock t
    else headerBlock t

/-- Conversation roles. -/
inductive Role where
  | system : Role
  | user : Role
  | assistant : Role
deriving DecidableEq

/-- One message of the conversation history. -/
structure Turn where
  role : Role
  content : String
deriving DecidableEq

/-- The standing fraud-analyst instructions of the initial `SystemMessage`. -/
def systemInstructions : String :=
  "You are a professional fraud detection analyst assistant. \nYour role is to analyze cosmetics transaction data and provide clear, well-structured insights about fraud patterns.\n\nIMPORTANT GUIDELINES:\n- Provide responses in a clear, professional format\n- Use bullet points, numbered lists, and proper formatting\n- Include specific statistics and percentages when relevant\n- Highlight key patterns and anomalies\n- Keep responses concise but comprehensive\n- Use **bold text** for emphasis and section titles (NOT markdown headers like ## or ###)\n- Use bullet points (*) and numbered lists for better readability\n- Avoid using markdown headers (##, ###) - instead use **bold text** for section titles\n- Avoid messy formatting or special characters like ^^\n- Structure your responses with clear sections using bold text for headings"

/-- The instruction text of the `SystemMessage` rebuilt by `/clear`. -/
def resetInstructions : String :=
  "You are a professional fraud detection analyst assistant. \nYour role is to analyze cosmetics transaction data and provide clear, well-structured insights about fraud patterns.\n\nIMPORTANT GUIDELINES:\n- Provide responses in a clear, professional format\n- Use bullet points, numbered lists, and proper formatting\n- Include specific statistics and percentages when relevant\n- Highlight key patterns and anomalies\n- Keep responses concise but comprehensive\n- Use **bold text** for emphasis and section titles (NOT markdown headers like ## or ###)\n- Use bullet points (*) and numbered lists for better readability\n- Avoid using markdown headers (##, ###) - instead use **bold text** for section titles\n- Avoid messy formatting or special characters like ^^\n- Structure your responses with clear sections using bold text for headings"

/-- `conversation_history` at process start. -/
def initial_conversation_history : List Turn :=
  [⟨Role.system, systemInstructions⟩]

/-- `clear_chat()`: the new history and the fixed confirmation reply. -/
def clear_chat : List Turn × String :=
  ([⟨Role.system, resetInstructions⟩], "✅ Chat history cleared.")

/-- Literal text before the digest in the enriched prompt f-string. -/
def composeIntro : String :=
  "You have access to a cosmetics fraud detection dataset. Here's a summary:\n\n"

/-- Literal text between the digest and the question. -/
def composeMid : String :=
  "\n\nNow answer this question clearly and professionally:\n"

/-- Literal formatting directives after the question. -/
def composeTail : String :=
  "\n\nRemember to:\n- Provide well-structured, formatted responses\n- Use specific numbers and statistics from the data\n- Use **bold text** for section headings (NOT ## or ###)\n- Use bullet points (*) and numbered lists for better readability\n- Keep it clear and professional\n- Avoid using markdown headers (##, ###) - use bold text instead\n- Avoid messy formatting"

/-- The enriched body spliced into the last user turn. -/
def composePrompt (digest userMessage : String) : String :=
  composeIntro ++ digest ++ composeMid ++ userMessage ++ composeTail

/-- The history after the append / conditional in-place rewrite steps of
`chat_route`, i.e. the transcript sent to the model. -/
def composedHistory (ds : Option Table) (history : List Turn)
    (userMessage : String) : List Turn :=
  let h1 := history ++ [⟨Role.user, userMessage⟩]
  match ds with
  | some _ =>
    h1.dropLast ++ [⟨Role.user, composePrompt (get_dataset_summary ds) userMessage⟩]
  | none => h1

/-- `chat_route()`: appends the user turn, conditionally rewrites it with the
digest, calls the model (any raised error is caught and turned into the
`"⚠️ Error: ..."` reply), appends the assistant turn, and returns the new
history together with the reply. -/
def chat_route (ds : Option Table) (history : List Turn) (userMessage : String)
    (invokeModel : List Turn → Except String String) : List Turn × String :=
  let h2 := composedHistory ds history userMessage
  let ai := match invokeModel h2 with
    | Except.ok r => r
    | Except.error e => "⚠️ Error: " ++ e
  (h2 ++ [⟨Role.assistant, ai⟩], ai)

/-- Number of turns with the given role. -/
def countRole (ρ : Role) (h : List Turn) : Nat :=
  (h.filter (fun tr => tr.role == ρ)).length

/-- The exact percentages reported for the groups of the value list `xs`
(each group's count relative to `xs.length`, rounded to 2 decimals). -/
def breakdownPcts (xs : List String) : List ℚ :=
  (value_counts xs).map (fun p => pctOf xs.length p.2)

/-- The percentages of the loyalty-tier breakdown of table `t`. -/
def loyaltyPcts (t : Table) : List ℚ :=
  breakdownPcts ((fraud_df t).map (fun r => r.loyaltyTier))

/-- The body the just-appended user turn carries when the transcript is sent:
the enriched prompt when the dataset loaded, the plain question otherwise. -/
def outboundBody (ds : Option Table) (q : String) : String :=
  match ds with
  | some _ => composePrompt (get_dataset_summary ds) q
  | none => q

/-- The reply produced by `chat_route`: the model's answer, or the
error-prefixed message when the call raises. -/
def chatReply (ds : Option Table) (history : List Turn) (q : String)
    (invokeModel : List Turn → Except String String) : String :=
  match invokeModel (composedHistory ds history q) with
  | Except.ok r => r
  | Except.error e => "⚠️ Error: " ++ e

/-- All column-presence flags off. -/
def noCols : Cols :=
  ⟨false, false, false, false, false, false, false, false, false, false⟩

/-- A row with the given loyalty tier, store id and fraud flag. -/
def mkRow (tier store : String) (flag : Nat) : Row :=
  ⟨tier, "", "", store, "", "", 0, 0, flag⟩

/-- A table whose fraud subset has 7 equally-sized loyalty-tier groups. -/
def ex7 : Table :=
  { cols := { noCols with fraudFlag := true, loyaltyTier := true },
    rows := [mkRow "Tier1" "" 1, mkRow "Tier2" "" 1, mkRow "Tier3" "" 1,
             mkRow "Tier4" "" 1, mkRow "Tier5" "" 1, mkRow "Tier6" "" 1,
             mkRow "Tier7" "" 1] }

/-- A table whose fraud subset has 15 distinct store ids. -/
def ex15 : Table :=
  { cols := { noCols with fraudFlag := true, storeId := true },
    rows := [mkRow "" "S01" 1, mkRow "" "S02" 1, mkRow "" "S03" 1,
             mkRow "" "S04" 1, mkRow "" "S05" 1, mkRow "" "S06" 1,
             mkRow "" "S07" 1, mkRow "" "S08" 1, mkRow "" "S09" 1,
             mkRow "" "S10" 1, mkRow "" "S11" 1, mkRow "" "S12" 1,
             mkRow "" "S13" 1, mkRow "" "S14" 1, mkRow "" "S15" 1] }

/-- A table with rows but an empty fraud subset. -/
def ex0 : Table :=
  { cols := { noCols with fraudFlag := true },
    rows := [mkRow "Gold" "S01" 0, mkRow "Silver" "S02" 0] }

/-- A table with one fraud row and one legitimate row. -/
def exMixed : Table :=
  { cols := { noCols with fraudFlag := true },
    rows := [mkRow "Gold" "S01" 1, mkRow "Silver" "S02" 0] }

end FraudChatbot

namespace FraudChatbot

/-! ### Helper lemmas: rounding -/

theorem abs_roundQ_sub (x : ℚ) : |(roundQ x : ℚ) - x| ≤ 1/2 := by
  rw [abs_sub_le_iff]
  constructor
  · have h := Int.floor_le (x + 1/2)
    unfold roundQ
    push_cast at h ⊢
    linarith
  · have h := Int.lt_floor_add_one (x + 1/2)
    unfold roundQ
    push_cast at h ⊢
    linarith

theorem abs_round2_sub (x : ℚ) : |round2 x - x| ≤ 1/200 := by
  have h := abs_roundQ_sub (x * 100)
  have e : round2 x - x = ((roundQ (x*100) : ℚ) - x * 100) / 100 := by
    unfold round2; ring
  rw [e, abs_div, abs_of_pos (by norm_num : (0:ℚ) < 100)]
  linarith

theorem round2_nonneg (x : ℚ) (hx : 0 ≤ x) : 0 ≤ round2 x := by
  unfold round2 roundQ
  have : (0:ℤ) ≤ ⌊x * 100 + 1/2⌋ := Int.floor_nonneg.mpr (by linarith)
  positivity

/-! ### Helper lemmas: counting and `value_counts` -/

theorem mem_dedupFirstAux_not_seen (xs : List String) :
    ∀ seen, ∀ a ∈ dedupFirstAux seen xs, seen.contains a = false := by
  induction xs with
  | nil => intro seen a ha; simp [dedupFirstAux] at ha
  | cons x l ih =>
    intro seen a ha
    by_cases hx : seen.contains x
    · rw [dedupFirstAux, if_pos hx] at ha
      exact ih seen a ha
    · rw [dedupFirstAux, if_neg hx] at ha
      rcases List.mem_cons.mp ha with rfl | ha
      · simpa using hx
      · have h2 := ih (x :: seen) a ha
        simp only [List.contains_cons, Bool.or_eq_false_iff] at h2
        exact h2.2

theorem countOcc_cons_self (l : List String) (a : String) :
    countOcc (a :: l) a = countOcc l a + 1 := by
  simp [countOcc, List.filter_cons]

theorem countOcc_cons_ne (l : List String) (u x : String) (h : x ≠ u) :
    countOcc (x :: l) u = countOcc l u := by
  simp [countOcc, List.filter_cons, h]

theorem countOcc_filter_split (x : String) :
    ∀ (l : List String) (seen : List String), seen.contains x = false →
    countOcc l x + (l.filter (fun y => !((x :: seen).contains y))).length
      = (l.filter (fun y => !(seen.contains y))).length := by
  intro l
  induction l with
  | nil => intro seen _; simp [countOcc]
  | cons y l ih =>
    intro seen h
    have hm : x ∉ seen := by simpa using h
    by_cases hyx : y = x
    · subst hyx
      rw [countOcc_cons_self]
      have e1 : List.filter (fun z => !((y :: seen).contains z)) (y :: l)
          = List.filter (fun z => !((y :: seen).contains z)) l := by
        rw [List.filter_cons]; simp
      have e2 : List.filter (fun z => !(seen.contains z)) (y :: l)
          = y :: List.filter (fun z => !(seen.contains z)) l := by
        rw [List.filter_cons]; simp [hm]
      rw [e1, e2, List.length_cons]
      have := ih seen h
      omega
    · rw [countOcc_cons_ne _ _ _ hyx]
      by_cases hs : y ∈ seen
      · have e1 : List.filter (fun z => !((x :: seen).contains z)) (y :: l)
            = List.filter (fun z => !((x :: seen).contains z)) l := by
          rw [List.filter_cons]; simp [hs]
        have e2 : List.filter (fun z => !(seen.contains z)) (y :: l)
            = List.filter (fun z => !(seen.contains z)) l := by
          rw [List.filter_cons]; simp [hs]
        rw [e1, e2]
        exact ih seen h
      · have e1 : List.filter (fun z => !((x :: seen).contains z)) (y :: l)
            = y :: List.filter (fun z => !((x :: seen).contains z)) l := by
          rw [List.filter_cons]; simp [hyx, hs]
        have e2 : List.filter (fun z => !(seen.contains z)) (y :: l)
            = y :: List.filter (fun z => !(seen.contains z)) l := by
          rw [List.filter_cons]; simp [hs]
        rw [e1, e2, List.length_cons, List.length_cons]
        have := ih seen h
        omega

theorem sum_counts_aux (xs : List String) :
    ∀ seen, ((dedupFirstAux seen xs).map (fun a => countOcc xs a)).sum
      = (xs.filter (fun y => !(seen.contains y))).length := by
  induction xs with
  | nil => intro seen; simp [dedupFirstAux]
  | cons x l ih =>
    intro seen
    by_cases hx : seen.contains x
    · rw [dedupFirstAux, if_pos hx]
      have hmap : (dedupFirstAux seen l).map (fun a => countOcc (x :: l) a)
          = (dedupFirstAux seen l).map (fun a => countOcc l a) := by
        apply List.map_congr_left
        intro a ha
        have hns := mem_dedupFirstAux_not_seen l seen a ha
        have hax : x ≠ a := by
          intro hcontra; rw [hcontra] at hx; rw [hns] at hx; exact Bool.noConfusion hx
        exact countOcc_cons_ne l a x hax
      have hmem : x ∈ seen := by simpa using hx
      have e2 : List.filter (fun y => !(seen.contains y)) (x :: l)
          = List.filter (fun y => !(seen.contains y)) l := by
        rw [List.filter_cons]; simp [hmem]
      rw [hmap, ih seen, e2]
    · rw [dedupFirstAux, if_neg hx]
      simp only [List.map_cons, List.sum_cons]
      have hmap : (dedupFirstAux (x :: seen) l).map (fun a => countOcc (x :: l) a)
          = (dedupFirstAux (x :: seen) l).map (fun a => countOcc l a) := by
        apply List.map_congr_left
        intro a ha
        have hns := mem_dedupFirstAux_not_seen l (x :: seen) a ha
        simp only [List.contains_cons, Bool.or_eq_false_iff] at hns
        have hax : x ≠ a := by
          intro hcontra
          have := hns.1
          rw [hcontra] at this
          simp at this
        exact countOcc_cons_ne l a x hax
      rw [countOcc_cons_self, hmap, ih (x :: seen)]
      have hmem : x ∉ seen := by simpa using eq_false_of_ne_true hx
      have hsplit := countOcc_filter_split x l seen (eq_false_of_ne_true hx)
      have e2 : List.filter (fun y => !(seen.contains y)) (x :: l)
          = x :: List.filter (fun y => !(seen.contains y)) l := by
        rw [List.filter_cons]; simp [hmem]
      rw [e2, List.length_cons]
      omega

theorem sum_rawCounts (xs : List String) :
    ((rawCounts xs).map (fun p => p.2)).sum = xs.length := by
  unfold rawCounts dedupFirst
  rw [List.map_map]
  have : ((fun p : String × Nat => p.2) ∘ fun a => (a, countOcc xs a))
      = fun a => countOcc xs a := rfl
  rw [this, sum_counts_aux xs []]
  simp

theorem sum_value_counts (xs : List String) :
    ((value_counts xs).map (fun p => p.2)).sum = xs.length := by
  unfold value_counts
  have hperm := List.perm_insertionSort byCountDesc (rawCounts xs)
  rw [(hperm.map (fun p : String × Nat => p.2)).sum_eq, sum_rawCounts]

theorem length_value_counts (xs : List String) :
    (value_counts xs).length = (dedupFirst xs).length := by
  unfold value_counts
  rw [(List.perm_insertionSort byCountDesc (rawCounts xs)).length_eq]
  unfold rawCounts
  exact List.length_map _ _

end FraudChatbot

namespace FraudChatbot

/-! ### Helper lemmas: sorting, percentage sums, transcript shape -/

theorem value_counts_sorted (xs : List String) :
    List.Sorted byCountDesc (value_counts xs) :=
  List.sorted_insertionSort byCountDesc (rawCounts xs)

theorem value_counts_stable (xs : List String) (p q : String × Nat)
    (hle : byCountDesc p q) (hsub : [p, q].Sublist (rawCounts xs)) :
    [p, q].Sublist (value_counts xs) :=
  List.pair_sublist_insertionSort hle hsub

theorem sorted_take_drop {L : List (String × Nat)}
    (hs : List.Sorted byCountDesc L) (n : Nat) :
    ∀ p ∈ L.take n, ∀ q ∈ L.drop n, byCountDesc p q := by
  have h := hs
  rw [← List.take_append_drop n L] at h
  exact (List.pairwise_append.mp h).2.2

theorem sum_map_mul_nat (l : List (String × Nat)) (k : ℚ) :
    (l.map (fun p => (p.2 : ℚ) * k)).sum
      = (((l.map (fun p => p.2)).sum : ℕ) : ℚ) * k := by
  induction l with
  | nil => simp
  | cons p l ih =>
    simp only [List.map_cons, List.sum_cons]
    rw [ih]
    push_cast
    ring

theorem sum_exact_pcts (xs : List String) (hne : xs ≠ []) :
    ((value_counts xs).map (fun p => (p.2 : ℚ) / (xs.length : ℚ) * 100)).sum
      = 100 := by
  have hn : (0:ℚ) < (xs.length : ℚ) := by
    have : 0 < xs.length := List.length_pos.mpr hne
    exact_mod_cast this
  have he : ∀ p ∈ value_counts xs,
      (p.2 : ℚ) / (xs.length : ℚ) * 100 = (p.2 : ℚ) * (100 / (xs.length : ℚ)) := by
    intro p _; ring
  rw [List.map_congr_left he, sum_map_mul_nat, sum_value_counts]
  field_simp

theorem abs_sum_map_round2 (l : List ℚ) :
    |(l.map round2).sum - l.sum| ≤ (l.length : ℚ) * (1/200) := by
  induction l with
  | nil => simp
  | cons x l ih =>
    simp only [List.map_cons, List.sum_cons, List.length_cons]
    push_cast
    have h1 := abs_round2_sub x
    have htri : |round2 x + ((l.map round2).sum) - (x + l.sum)|
        ≤ |round2 x - x| + |(l.map round2).sum - l.sum| := by
      have he : round2 x + ((l.map round2).sum) - (x + l.sum)
          = (round2 x - x) + ((l.map round2).sum - l.sum) := by ring
      rw [he]
      exact abs_add _ _
    linarith

theorem breakdownPcts_eq_map_round2 (xs : List String) :
    breakdownPcts xs
      = ((value_counts xs).map (fun p => (p.2 : ℚ) / (xs.length : ℚ) * 100)).map
          round2 := by
  unfold breakdownPcts pctOf
  rw [List.map_map]
  rfl

theorem breakdownPcts_nonneg (xs : List String) :
    ∀ x ∈ breakdownPcts xs, 0 ≤ x := by
  intro x hx
  unfold breakdownPcts at hx
  rcases List.mem_map.mp hx with ⟨p, _, rfl⟩
  apply round2_nonneg
  positivity

theorem sum_take_le_sum (l : List ℚ) (k : Nat) (h : ∀ x ∈ l, 0 ≤ x) :
    (l.take k).sum ≤ l.sum := by
  conv_rhs => rw [← List.take_append_drop k l]
  rw [List.sum_append]
  have hd : 0 ≤ (l.drop k).sum :=
    List.sum_nonneg (fun x hx => h x (List.mem_of_mem_drop hx))
  linarith

theorem natsum_le_length (l : List Nat) (h : ∀ x ∈ l, x ≤ 1) :
    l.sum ≤ l.length := by
  induction l with
  | nil => simp
  | cons x l ih =>
    simp only [List.sum_cons, List.length_cons]
    have hx := h x (List.mem_cons_self x l)
    have ht := ih (fun y hy => h y (List.mem_cons_of_mem x hy))
    omega

theorem composedHistory_eq (ds : Option Table) (history : List Turn) (q : String) :
    composedHistory ds history q = history ++ [⟨Role.user, outboundBody ds q⟩] := by
  cases ds with
  | none => rfl
  | some t =>
    unfold composedHistory outboundBody
    simp [List.dropLast_concat]

theorem countRole_append (ρ : Role) (h1 h2 : List Turn) :
    countRole ρ (h1 ++ h2) = countRole ρ h1 + countRole ρ h2 := by
  unfold countRole
  rw [List.filter_append, List.length_append]

end FraudChatbot

namespace FraudChatbot

theorem chat_route_eq (ds : Option Table) (history : List Turn) (q : String)
    (invokeModel : List Turn → Except String String) :
    chat_route ds history q invokeModel
      = (composedHistory ds history q
          ++ [⟨Role.assistant, chatReply ds history q invokeModel⟩],
         chatReply ds history q invokeModel) := rfl

/-! ### Claim theorems -/

/-- Claim C1 (counterexample): with the dataset store unavailable, the chat
flow appends the plain question unchanged; the outbound turn body is NOT a
composition of the question with the "not available" digest message, because
`chat_route` skips the enrichment step entirely when `df is None`. -/
theorem C1_counterexample :
    get_dataset_summary none = "Dataset not available." ∧
    composedHistory none initial_conversation_history "What drives fraud?"
      = initial_conversation_history ++ [⟨Role.user, "What drives fraud?"⟩] ∧
    "What drives fraud?"
      ≠ composePrompt (get_dataset_summary none) "What drives fraud?" := by
  refine ⟨rfl, rfl, ?_⟩
  decide

/-- Claim C1 (amended): when the Dataset Store is unavailable, the digest
builder returns the literal "Dataset not available." message; the chat flow
raises no exception but skips prompt composition entirely, so the outbound
turn is the plain user question appended unchanged, and the transcript that
is sent is never empty. -/
theorem C1_unavailable_digest_plain_question (history : List Turn) (q : String) :
    get_dataset_summary none = "Dataset not available." ∧
    composedHistory none history q = history ++ [⟨Role.user, q⟩] ∧
    (composedHistory none history q).length = history.length + 1 ∧
    composedHistory none history q ≠ [] := by
  refine ⟨rfl, rfl, ?_, ?_⟩
  · simp [composedHistory]
  · simp [composedHistory]

/-- Claim C2: every user turn that goes through the full chat flow appends
exactly one assistant turn to the transcript, the transcript grows by exactly
two turns, the assistant turn is last and carries the returned reply; when the
answering call fails the caught error becomes the visible error-prefixed
reply, appended like any normal reply, and no exception escapes (the flow is
a total function). -/
theorem C2_exactly_one_assistant_turn (ds : Option Table) (history : List Turn)
    (q : String) (invokeModel : List Turn → Except String String) :
    (chat_route ds history q invokeModel).1.length = history.length + 2 ∧
    countRole Role.assistant (chat_route ds history q invokeModel).1
      = countRole Role.assistant history + 1 ∧
    (chat_route ds history q invokeModel).1.getLast?
      = some ⟨Role.assistant, (chat_route ds history q invokeModel).2⟩ ∧
    (∀ r, invokeModel (composedHistory ds history q) = Except.ok r →
      (chat_route ds history q invokeModel).2 = r) ∧
    (∀ e, invokeModel (composedHistory ds history q) = Except.error e →
      (chat_route ds history q invokeModel).2 = "⚠️ Error: " ++ e) := by
  rw [chat_route_eq, composedHistory_eq]
  refine ⟨?_, ?_, ?_, ?_, ?_⟩
  · simp
  · rw [List.append_assoc, countRole_append]
    simp [countRole]
  · rw [List.append_assoc]
    simp
  · intro r hr
    simp [chatReply, composedHistory_eq, hr]
  · intro e he
    simp [chatReply, composedHistory_eq, he]

/-- Claim C2 witness: a failing answering call on the initial history yields
the error-prefixed reply and exactly one extra assistant turn. -/
theorem C2_witness :
    (chat_route none initial_conversation_history "hi"
        (fun _ => Except.error "quota exceeded")).2
      = "⚠️ Error: " ++ "quota exceeded" ∧
    countRole Role.assistant
        (chat_route none initial_conversation_history "hi"
          (fun _ => Except.error "quota exceeded")).1
      = countRole Role.assistant initial_conversation_history + 1 :=
  ⟨(C2_exactly_one_assistant_turn none initial_conversation_history "hi"
      (fun _ => Except.error "quota exceeded")).2.2.2.2 "quota exceeded" rfl,
   (C2_exactly_one_assistant_turn none initial_conversation_history "hi"
      (fun _ => Except.error "quota exceeded")).2.1⟩

/-- Claim C5: the digest builder is deterministic and idempotent — it is a
pure function of the dataset (the source draws no randomness and no clock),
so a repeated call and a call on an identical dataset give byte-identical
output. -/
theorem C5_digest_deterministic (ds1 ds2 : Option Table) (h : ds1 = ds2) :
    get_dataset_summary ds1 = get_dataset_summary ds1 ∧
    get_dataset_summary ds1 = get_dataset_summary ds2 := ⟨rfl, by rw [h]⟩

/-- Claim C5 witness: instantiated on the seven-row example table. -/
theorem C5_witness :
    get_dataset_summary (some ex7) = get_dataset_summary (some ex7) :=
  (C5_digest_deterministic (some ex7) (some ex7) rfl).2

/-- Claim C7: on an available dataset the composed string replaces the body
of the just-appended user turn: the sent transcript is the old history plus
one user turn whose body embeds the verbatim digest, restates the question
unmodified between the fixed intro/mid/tail literals, and appends the
standing formatting directives; the plain question is not retained (the
stored body differs from it) and no earlier turn is modified. -/
theorem C7_composed_replaces_last_user_turn (t : Table) (history : List Turn)
    (q : String) :
    composedHistory (some t) history q
      = history ++ [⟨Role.user, composePrompt (get_dataset_summary (some t)) q⟩] ∧
    composePrompt (get_dataset_summary (some t)) q
      = composeIntro ++ get_dataset_summary (some t) ++ composeMid ++ q
        ++ composeTail ∧
    (composedHistory (some t) history q).dropLast = history ∧
    composePrompt (get_dataset_summary (some t)) q ≠ q := by
  refine ⟨composedHistory_eq (some t) history q, rfl, ?_, ?_⟩
  · rw [composedHistory_eq]
    exact List.dropLast_concat
  · intro h
    have hlen := congrArg String.length h
    simp only [composePrompt, String.length_append] at hlen
    have h1 : 0 < composeIntro.length := by decide
    omega

/-- Claim C8: `clear_chat` resets the transcript to exactly one turn, whose
role is system and whose body is the standing fraud-analyst instructions —
the same verbatim text as the initial transcript at process start. -/
theorem C8_reset_single_system_turn :
    clear_chat.1 = [⟨Role.system, resetInstructions⟩] ∧
    clear_chat.1.length = 1 ∧
    (∀ tr ∈ clear_chat.1, tr.role = Role.system) ∧
    resetInstructions = systemInstructions ∧
    clear_chat.1 = initial_conversation_history := by
  refine ⟨rfl, rfl, ?_, rfl, rfl⟩
  intro tr htr
  rw [List.mem_singleton.mp htr]

end FraudChatbot

namespace FraudChatbot

/-- Claim C3: for every available dataset whose fraud flags are drawn from
{0,1}, the digest's fraud rate equals `fraud_count / total * 100` (with the
count taken as 0 when the flag column is absent), it always lies between 0
and 100, and a zero-row table gives rate 0 with no division error. -/
theorem C3_fraud_rate_formula_and_bounds (t : Table)
    (hflags : ∀ r ∈ t.rows, r.fraudFlag = 0 ∨ r.fraudFlag = 1) :
    fraud_rate t = (fraud_count t : ℚ) / (t.rows.length : ℚ) * 100 ∧
    (t.cols.fraudFlag = false → fraud_count t = 0) ∧
    0 ≤ fraud_rate t ∧ fraud_rate t ≤ 100 ∧
    (t.rows.length = 0 → fraud_rate t = 0) := by
  have hcle : fraud_count t ≤ t.rows.length := by
    unfold fraud_count
    by_cases hc : t.cols.fraudFlag
    · rw [if_pos hc]
      have hb : ∀ x ∈ t.rows.map (fun r => r.fraudFlag), x ≤ 1 := by
        intro x hx
        rcases List.mem_map.mp hx with ⟨r, hr, rfl⟩
        rcases hflags r hr with h0 | h1 <;> omega
      have := natsum_le_length (t.rows.map (fun r => r.fraudFlag)) hb
      simpa using this
    · rw [if_neg hc]; omega
  have hformula : fraud_rate t = (fraud_count t : ℚ) / (t.rows.length : ℚ) * 100 := by
    unfold fraud_rate
    by_cases hl : 0 < t.rows.length
    · rw [if_pos hl]
    · rw [if_neg hl]
      have h0 : t.rows.length = 0 := by omega
      have hc0 : fraud_count t = 0 := by omega
      rw [h0, hc0]
      norm_num
  have hnn : 0 ≤ fraud_rate t := by
    unfold fraud_rate
    by_cases hl : 0 < t.rows.length
    · rw [if_pos hl]; positivity
    · rw [if_neg hl]
  have hub : fraud_rate t ≤ 100 := by
    unfold fraud_rate
    by_cases hl : 0 < t.rows.length
    · rw [if_pos hl]
      have hn : (0:ℚ) < (t.rows.length : ℚ) := by exact_mod_cast hl
      have hc : (fraud_count t : ℚ) ≤ (t.rows.length : ℚ) := by exact_mod_cast hcle
      have hdiv : (fraud_count t : ℚ) / (t.rows.length : ℚ) ≤ 1 :=
        (div_le_one hn).mpr hc
      calc (fraud_count t : ℚ) / (t.rows.length : ℚ) * 100
          ≤ 1 * 100 := by
            apply mul_le_mul_of_nonneg_right hdiv
            norm_num
        _ = 100 := by norm_num
    · rw [if_neg hl]; norm_num
  refine ⟨hformula, ?_, hnn, hub, ?_⟩
  · intro hc
    unfold fraud_count
    rw [hc]
    rfl
  · intro h0
    unfold fraud_rate
    rw [h0]
    rfl

/-- Claim C3 witness: the formula and bounds instantiated on a two-row table
with one fraud row. -/
theorem C3_witness :
    (∀ r ∈ exMixed.rows, r.fraudFlag = 0 ∨ r.fraudFlag = 1) ∧
    0 ≤ fraud_rate exMixed ∧ fraud_rate exMixed ≤ 100 :=
  ⟨by decide,
   (C3_fraud_rate_formula_and_bounds exMixed (by decide)).2.2.1,
   (C3_fraud_rate_formula_and_bounds exMixed (by decide)).2.2.2.1⟩

/-- Claim C9: when the fraud subset is empty, the digest is exactly the
header block — every per-category breakdown, the purchase-amount statistics,
the age statistics and the time note are omitted, and no error occurs. -/
theorem C9_empty_fraud_subset_header_only (t : Table) (h : fraud_df t = []) :
    get_dataset_summary (some t) = headerBlock t := by
  have e : get_dataset_summary (some t)
      = if 0 < (fraud_df t).length then headerBlock t ++ fraudStatsBlock t
        else headerBlock t := rfl
  rw [e, h]
  simp

/-- Claim C9 witness: a two-row table with no fraud rows produces just the
header block. -/
theorem C9_witness :
    fraud_df ex0 = [] ∧ get_dataset_summary (some ex0) = headerBlock ex0 :=
  ⟨rfl, C9_empty_fraud_subset_header_only ex0 rfl⟩

set_option maxRecDepth 4000 in
/-- Claim C10: the KEY COLUMNS AVAILABLE block is a hardcoded constant
listing exactly 16 column names (including Product_SKU and IP_Address) and
appears in the digest of every available dataset, whatever its
column-presence flags. -/
theorem C10_key_columns_block_constant :
    keyColumnNames.length = 16 ∧
    "Product_SKU" ∈ keyColumnNames ∧
    "IP_Address" ∈ keyColumnNames ∧
    keyColumnsBlock
      = "KEY COLUMNS AVAILABLE:\n- "
        ++ String.intercalate ", " (keyColumnNames.take 4)
        ++ "\n- " ++ String.intercalate ", " ((keyColumnNames.drop 4).take 4)
        ++ "\n- " ++ String.intercalate ", " ((keyColumnNames.drop 8).take 3)
        ++ "\n- " ++ String.intercalate ", " (keyColumnNames.drop 11) ∧
    ∀ t : Table, ∃ a b : String,
      get_dataset_summary (some t) = a ++ keyColumnsBlock ++ b := by
  refine ⟨rfl, by decide, by decide, by rfl, ?_⟩
  intro t
  by_cases hf : 0 < (fraud_df t).length
  · refine ⟨overviewBlock t, "\n\n" ++ fraudStatsBlock t, ?_⟩
    simp [get_dataset_summary, hf, headerBlock, String.append_assoc]
  · refine ⟨overviewBlock t, "\n\n", ?_⟩
    simp [get_dataset_summary, hf, headerBlock, String.append_assoc]

/-- Claim C6: for the store-id and location breakdowns, when the fraud subset
has more than 10 distinct values the digest lists exactly the 10 groups of
largest count, in descending count order; every omitted group's count is at
most every listed group's count, and equal-count groups keep the stable
first-occurrence order of the underlying counts (no re-derived tie-break). -/
theorem C6_top10_descending_stable (t : Table) (getVal : Row → String)
    (_hcol : getVal = (fun r => r.storeId) ∨ getVal = (fun r => r.location))
    (hmany : 10 < (dedupFirst ((fraud_df t).map getVal)).length) :
    ((value_counts ((fraud_df t).map getVal)).take 10).length = 10 ∧
    List.Sorted byCountDesc ((value_counts ((fraud_df t).map getVal)).take 10) ∧
    (∀ p ∈ (value_counts ((fraud_df t).map getVal)).take 10,
      ∀ q ∈ (value_counts ((fraud_df t).map getVal)).drop 10, q.2 ≤ p.2) ∧
    (∀ p q, [p, q].Sublist (rawCounts ((fraud_df t).map getVal)) → p.2 = q.2 →
      [p, q].Sublist (value_counts ((fraud_df t).map getVal))) := by
  refine ⟨?_, ?_, ?_, ?_⟩
  · rw [List.length_take, length_value_counts]
    omega
  · exact (value_counts_sorted _).sublist (List.take_sublist 10 _)
  · intro p hp q hq
    exact sorted_take_drop (value_counts_sorted _) 10 p hp q hq
  · intro p q hsub heq
    exact value_counts_stable _ p q (le_of_eq heq.symm) hsub

/-- Claim C6 witness: a table whose fraud subset has 15 distinct store ids
shows exactly 10 groups. -/
theorem C6_witness :
    10 < (dedupFirst ((fraud_df ex15).map (fun r => r.storeId))).length ∧
    ((value_counts ((fraud_df ex15).map (fun r => r.storeId))).take 10).length
      = 10 :=
  ⟨by decide,
   (C6_top10_descending_stable ex15 (fun r => r.storeId) (Or.inl rfl)
      (by decide)).1⟩

end FraudChatbot

namespace FraudChatbot

/-- Claim C4 (counterexample): a fraud subset of 7 rows in 7 equally-sized
loyalty-tier groups reports 7 percentages of 14.29% each; the breakdown sums
to 100.03%, which exceeds the claimed fixed tolerance of 100% ± 0.02. -/
theorem C4_counterexample :
    (loyaltyPcts ex7).sum = 10003/100 ∧
    ¬ (|(loyaltyPcts ex7).sum - 100| ≤ 2/100) := by
  have hvc : value_counts ((fraud_df ex7).map (fun r => r.loyaltyTier))
      = [("Tier1",1),("Tier2",1),("Tier3",1),("Tier4",1),("Tier5",1),
         ("Tier6",1),("Tier7",1)] := by decide
  have hlen : ((fraud_df ex7).map (fun r => r.loyaltyTier)).length = 7 := by
    decide
  have hp : pctOf 7 1 = 1429/100 := by
    unfold pctOf round2 roundQ
    norm_num
  have hsum : (loyaltyPcts ex7).sum = 10003/100 := by
    unfold loyaltyPcts breakdownPcts
    simp only [hvc, hlen, List.map_cons, List.map_nil, List.sum_cons,
      List.sum_nil, hp]
    norm_num
  refine ⟨hsum, ?_⟩
  rw [hsum]
  intro hcontra
  rw [show (10003:ℚ)/100 - 100 = 3/100 by norm_num,
    abs_of_nonneg (by norm_num : (0:ℚ) ≤ 3/100)] at hcontra
  norm_num at hcontra

/-- Claim C4 (amended): each reported percentage is the group count over the
fraud-subset size, times 100, rounded to 2 decimals, and is nonnegative; a
breakdown with k groups sums to 100% within k·0.005 (not within the fixed
0.02 claimed, which fails for more than 4 groups), and a top-10-truncated
breakdown sums to at most 100% plus the same k·0.005 allowance. -/
theorem C4_pct_sums_within_k_rounding (xs : List String) (hne : xs ≠ []) :
    breakdownPcts xs
      = (value_counts xs).map
          (fun p => round2 ((p.2 : ℚ) / (xs.length : ℚ) * 100)) ∧
    (∀ x ∈ breakdownPcts xs, 0 ≤ x) ∧
    |(breakdownPcts xs).sum - 100|
      ≤ ((value_counts xs).length : ℚ) * (1/200) ∧
    ((breakdownPcts xs).take 10).sum
      ≤ 100 + ((value_counts xs).length : ℚ) * (1/200) := by
  have hE := breakdownPcts_eq_map_round2 xs
  have hsumE :
      ((value_counts xs).map
        (fun p => (p.2 : ℚ) / (xs.length : ℚ) * 100)).sum = 100 :=
    sum_exact_pcts xs hne
  have hlenE :
      ((value_counts xs).map
        (fun p => (p.2 : ℚ) / (xs.length : ℚ) * 100)).length
      = (value_counts xs).length := List.length_map _ _
  have habs : |(breakdownPcts xs).sum - 100|
      ≤ ((value_counts xs).length : ℚ) * (1/200) := by
    have habs0 := abs_sum_map_round2
      ((value_counts xs).map (fun p => (p.2 : ℚ) / (xs.length : ℚ) * 100))
    rw [hsumE, hlenE] at habs0
    rw [hE]
    exact habs0
  refine ⟨?_, breakdownPcts_nonneg xs, habs, ?_⟩
  · simp only [breakdownPcts, pctOf]
  have htake := sum_take_le_sum (breakdownPcts xs) 10 (breakdownPcts_nonneg xs)
  have hup := (abs_le.mp habs).2
  linarith

/-- Claim C4 witness: the bound instantiated on a three-value payment list. -/
theorem C4_witness :
    (["Card", "Card", "Cash"] : List String) ≠ [] ∧
    |(breakdownPcts ["Card", "Card", "Cash"]).sum - 100|
      ≤ ((value_counts ["Card", "Card", "Cash"]).length : ℚ) * (1/200) :=
  ⟨by decide,
   (C4_pct_sums_within_k_rounding ["Card", "Card", "Cash"] (by decide)).2.2.1⟩

end FraudChatbot
